import Mathlib

/-!
Verification development for the rx-entity event-to-entity processing
pipeline.  The TypeScript sources are shallowly embedded: promises and
rxjs streams become explicit state threading over a pure store model,
`concatMap`'s sequential inner subscription becomes sequential folding
over the incoming event list, and every persistence interaction is
additionally recorded in an explicit action trace so that ordering and
all-or-nothing properties can be stated.
-/

namespace RxEntity

/-- Routing metadata attached to every event (src/package/index.ts lines
16-19, src/unnamed/part_001 lines 4-7). -/
structure Meta where
  entity : String
  eventType : String
deriving DecidableEq, Repr

/-- A single entity event: payload plus mandatory `id` and `meta`.  The
payload type is abstract (`β`). -/
structure EventRec (β : Type) where
  id : String
  meta : Meta
  payload : β
deriving DecidableEq, Repr

/-- The `event` argument of `entityEventHandler` is either a single event
or a non-empty array of events (`EventType | [EventType, ...any]`); the
array case is modelled as a head plus a (possibly empty) tail. -/
inductive EventArg (β : Type) where
  | single (e : EventRec β)
  | cluster (head : EventRec β) (rest : List (EventRec β))
deriving DecidableEq, Repr

/-- `Array.isArray(event) ? event[0].id : event.id` (index.ts line 88). -/
def EventArg.routeId : EventArg β → String
  | .single e => e.id
  | .cluster h _ => h.id

/-- `Array.isArray(event) ? event[0].meta.eventType : event.meta.eventType`
(index.ts line 89). -/
def EventArg.routeType : EventArg β → String
  | .single e => e.meta.eventType
  | .cluster h _ => h.meta.eventType

/-- An entity as the pipeline sees it: the two fields the pipeline
inspects (`id`, truthiness of `deleted`) made explicit, all remaining
domain content abstracted as `payload`.  `id = none` models an absent
`id` field. -/
structure EntityRec (α : Type) where
  id : Option String
  deleted : Bool
  payload : α
deriving DecidableEq, Repr

/-- JavaScript truthiness of the `id` field as used by
`if (!handledEntity.id)`: an absent field and the empty string are both
falsy. -/
def truthyId : Option String → Bool
  | some s => s != ""
  | none => false

/-- `Modelled from the spec:` the `@taterer/persist` store (an external
collaborator, spec section 6): a collection-scoped keyspace of entity
records, here an association list keyed by (collection, id). -/
def Store (α : Type) := List ((String × String) × EntityRec α)

instance [DecidableEq α] : DecidableEq (Store α) :=
  inferInstanceAs (DecidableEq (List ((String × String) × EntityRec α)))

instance [Repr α] : Repr (Store α) :=
  inferInstanceAs (Repr (List ((String × String) × EntityRec α)))

/-- `Modelled from the spec:` `get(collection, id)` returns the record
when present; when no record exists the promise rejects with NotFound,
modelled as `none`. -/
def persistGet (s : Store α) (col id : String) : Option (EntityRec α) :=
  (s.find? (fun kv => kv.1.1 == col && kv.1.2 == id)).map Prod.snd

/-- `Modelled from the spec:` `put(collection, {id}, entity)` upserts the
single record under (collection, id). -/
def persistPut (s : Store α) (col id : String) (v : EntityRec α) : Store α :=
  ((col, id), v) :: s.filter (fun kv => !(kv.1.1 == col && kv.1.2 == id))

/-- `Modelled from the spec:` `remove(collection, {id})` deletes the
single record under (collection, id). -/
def persistRemove (s : Store α) (col id : String) : Store α :=
  s.filter (fun kv => !(kv.1.1 == col && kv.1.2 == id))

/-- One observable interaction with the persistence store, recorded in
order of occurrence; a fetch additionally records the value it observed. -/
inductive StoreAction (α : Type) where
  | fetch (collection id : String) (found : Option (EntityRec α))
  | put (collection id : String)
  | remove (collection id : String)
deriving DecidableEq, Repr

/-- Whether an action mutates the store. -/
def StoreAction.isWrite : StoreAction α → Bool
  | .fetch _ _ _ => false
  | .put _ _ => true
  | .remove _ _ => true

instance {ε σ : Type} [DecidableEq ε] [DecidableEq σ] : DecidableEq (Except ε σ) := fun a b =>
  match a, b with
  | .ok x, .ok y =>
    if h : x = y then isTrue (congrArg Except.ok h)
    else isFalse (fun hc => h (Except.ok.inj hc))
  | .error x, .error y =>
    if h : x = y then isTrue (congrArg Except.error h)
    else isFalse (fun hc => h (Except.error.inj hc))
  | .ok _, .error _ => isFalse (fun hc => Except.noConfusion hc)
  | .error _, .ok _ => isFalse (fun hc => Except.noConfusion hc)

/-- The ways one checkout/apply/coordinate/persist cycle can fail. -/
inductive CycleError where
  | notFound (id : String)
  | missingHandler (eventType : String)
  | missingId
  | coordination (msg : String)
deriving DecidableEq, Repr

/-- The value a successful cycle resolves with:
`{ ...handledEntity, meta: { entity: entityPersistence, eventType } }`. -/
structure Settled (α : Type) where
  entity : EntityRec α
  meta : Meta
deriving DecidableEq, Repr

/-- The transition-function table: `{ [key: string]: (entity, event) => Entity }`;
an absent key models `eventHandlers[eventType] === undefined`. -/
def HandlerTable (α β : Type) :=
  String → Option (Option (EntityRec α) → EventArg β → EntityRec α)

/-- The coordination (side-handler) table of src/unnamed/part_001:
`{ [key]?: (entity, event, updatedEntity) => Promise<Entity> | Entity }`;
a raised error is modelled as `Except.error` with the error's message. -/
def SideTable (α β : Type) :=
  String → Option (Option (EntityRec α) → EventArg β → EntityRec α →
    Except String (EntityRec α))

/-- The result of one cycle: the store afterwards, the trace of store
interactions in order, and either the settled entity or the error the
promise rejected with. -/
def CycleResult (α : Type) :=
  Store α × List (StoreAction α) × Except CycleError (Settled α)

/-- The persist step of `entityEventHandler` (src/unnamed/part_001 lines
85-92, src/package/index.ts lines 101-108): a deleted entity is removed
under the incoming event's id; otherwise a truthy `id` field is required
and the entity is upserted under its own `id`. -/
def persistStep (s : Store α) (col eventId eventType : String)
    (handled : EntityRec α) : CycleResult α :=
  if handled.deleted then
    (persistRemove s col eventId, [.remove col eventId],
      .ok ⟨handled, ⟨col, eventType⟩⟩)
  else if truthyId handled.id then
    (persistPut s col (handled.id.getD "") handled,
      [.put col (handled.id.getD "")], .ok ⟨handled, ⟨col, eventType⟩⟩)
  else
    (s, [], .error .missingId)

/-- The apply/coordinate/persist part of a cycle, given the (possibly
absent) checked-out entity.  Looking up a missing transition key and
calling it (`eventHandlers[eventType](...)` on `undefined`) throws, so it
is an error before anything else happens; the side handler, when present
for the event type, is called with `(currentEntity, event, updatedEntity)`
and its result replaces the entity to persist. -/
def applyStep (s : Store α) (col : String) (eventHandlers : HandlerTable α β)
    (event : EventArg β) (sideHandlers : SideTable α β)
    (currentEntity : Option (EntityRec α)) : CycleResult α :=
  match eventHandlers event.routeType with
  | none => (s, [], .error (.missingHandler event.routeType))
  | some h =>
    let updatedEntity := h currentEntity event
    match sideHandlers event.routeType with
    | some sh =>
      match sh currentEntity event updatedEntity with
      | .error m => (s, [], .error (.coordination m))
      | .ok handled => persistStep s col event.routeId event.routeType handled
    | none => persistStep s col event.routeId event.routeType updatedEntity

/-- One full cycle, parameterized by the creation-sentinel string the
source hard-codes (`'add'` in src/unnamed/part_001 line 76, `'new'` in
src/package/index.ts line 95): fetch the current entity by the routing
id; a fetch miss is re-raised unless the event type equals the sentinel,
in which case the cycle continues with an absent current entity. -/
def cycle (creationType : String) (s : Store α) (col : String)
    (eventHandlers : HandlerTable α β) (event : EventArg β)
    (sideHandlers : SideTable α β) : CycleResult α :=
  match persistGet s col event.routeId with
  | some cur =>
    let r := applyStep s col eventHandlers event sideHandlers (some cur)
    (r.1, .fetch col event.routeId (some cur) :: r.2.1, r.2.2)
  | none =>
    if event.routeType = creationType then
      let r := applyStep s col eventHandlers event sideHandlers none
      (r.1, .fetch col event.routeId none :: r.2.1, r.2.2)
    else
      (s, [.fetch col event.routeId none], .error (.notFound event.routeId))

/-- `entityEventHandler` of src/unnamed/part_001 lines 62-94: creation
sentinel `'add'`, with an optional coordination table. -/
def entityEventHandler (s : Store α) (col : String)
    (eventHandlers : HandlerTable α β) (event : EventArg β)
    (sideHandlers : SideTable α β) : CycleResult α :=
  cycle "add" s col eventHandlers event sideHandlers

namespace Pkg

/-- `entityEventHandler` of src/package/index.ts lines 76-110: creation
sentinel `'new'`, and no coordination step at all (the function has no
side-handler parameter). -/
def entityEventHandler (s : Store α) (col : String)
    (eventHandlers : HandlerTable α β) (event : EventArg β) : CycleResult α :=
  cycle "new" s col eventHandlers event (fun _ => none)

end Pkg

/-- The aggregate result of feeding a finite event sequence through one
entity-service instance. -/
structure ServiceRun (α : Type) where
  store : Store α
  outputs : List (Settled α)
  trace : List (StoreAction α)
  err : Option CycleError
deriving DecidableEq, Repr

/-- `entityServiceFactory` of src/unnamed/part_001 lines 105-118,
shallowly embedded: `withLatestFrom(persistence$)` supplies the store,
and `concatMap(event => from(entityEventHandler(...)))` subscribes to
each cycle only after the previous one settled, so the stream transform
is a sequential fold over arriving events; an error from a cycle
terminates the output stream, so processing stops at the first failing
cycle. -/
def entityServiceFactory (col : String) (eventHandlers : HandlerTable α β)
    (sideHandlers : SideTable α β) :
    List (EventArg β) → Store α → ServiceRun α
  | [], s => ⟨s, [], [], none⟩
  | e :: rest, s =>
    let c := entityEventHandler s col eventHandlers e sideHandlers
    match c.2.2 with
    | .ok v =>
      let r := entityServiceFactory col eventHandlers sideHandlers rest c.1
      ⟨r.store, v :: r.outputs, c.2.1 ++ r.trace, r.err⟩
    | .error err => ⟨c.1, [], c.2.1, some err⟩

/-- A value carrying the `id` key the deduplication filter inspects
(the `Persistable` constraint). -/
structure Keyed (γ : Type) where
  id : String
  payload : γ
deriving DecidableEq, Repr

/-- The filtering loop of `filterPreviouslySeenIds` (src/package/index.ts
lines 149-162, src/unnamed/part_001 lines 124-137): the instance-local
`map` of seen ids, threaded through the arriving values; a value whose id
is already in the map is dropped, otherwise its id is recorded and the
value passes. -/
def dedupGo (seen : List String) : List (Keyed γ) → List (Keyed γ)
  | [] => []
  | x :: rest =>
    if x.id ∈ seen then dedupGo seen rest
    else x :: dedupGo (x.id :: seen) rest

/-- `filterPreviouslySeenIds()` applied to a finite input sequence: the
freshly constructed transform owns a new empty seen-id map. -/
def filterPreviouslySeenIds (xs : List (Keyed γ)) : List (Keyed γ) :=
  dedupGo [] xs

/-- Specification-side characterization (spec section 4.3): the first
occurrence of each id passes through, every later occurrence of an
already-seen id is dropped. -/
def firstOccurrences : List (Keyed γ) → List (Keyed γ)
  | [] => []
  | x :: rest =>
    x :: firstOccurrences (rest.filter (fun y => y.id != x.id))
termination_by l => l.length
decreasing_by
  simp only [List.length_cons]
  exact Nat.lt_succ_of_le (List.length_filter_le _ _)

/-- A JavaScript value, as far as the truthiness test in
`defaultValue ? new BehaviorSubject(...) : new Subject()` can observe. -/
inductive JsVal where
  | vnum (n : Int)
  | vstr (s : String)
  | vbool (b : Bool)
  | vobj
deriving DecidableEq, Repr

/-- JavaScript truthiness: 0, the empty string and `false` are falsy;
every object is truthy. -/
def jsTruthy : JsVal → Bool
  | .vnum n => n != 0
  | .vstr s => s != ""
  | .vbool b => b
  | .vobj => true

/-- What a freshly created subject replays to a new subscriber before
any `next` call: a `BehaviorSubject` immediately emits its current
(initial) value, a plain `Subject` emits nothing. -/
inductive SubjectKind where
  | behavior (initial : JsVal)
  | plain
deriving DecidableEq, Repr

/-- The subject chosen by `subjectFactory` (src/package/index.ts lines
30-38, src/unnamed/part_001 lines 23-34):
`defaultValue ? new BehaviorSubject<T>(defaultValue) : new Subject<T>()`,
a truthiness test on the optional default. -/
def subjectFactory (defaultValue : Option JsVal) : SubjectKind :=
  match defaultValue with
  | some v => if jsTruthy v then .behavior v else .plain
  | none => .plain

/-- The subject chosen by `eventFactory` (src/package/index.ts lines
44-57, src/unnamed/part_001 lines 40-51): the same truthiness test on its
optional (already meta-tagged) default.  The kind is reported on the
bare value so the same falsy cases are observable. -/
def eventFactory (_meta : Meta) (defaultValue : Option JsVal) : SubjectKind :=
  match defaultValue with
  | some v => if jsTruthy v then .behavior v else .plain
  | none => .plain

/-- The initial emissions a brand-new subscriber of the returned
observable receives before any `next` call. -/
def initialEmissions : SubjectKind → List JsVal
  | .behavior v => [v]
  | .plain => []

/-- Number of store mutations in a trace. -/
def countWrites (tr : List (StoreAction α)) : Nat :=
  (tr.filter StoreAction.isWrite).length

/-- The payload of an event argument's authoritative (first) element. -/
def EventArg.firstPayload : EventArg β → β
  | .single e => e.payload
  | .cluster h _ => h.payload

/-- The calculator transition function of the repository's own tests
(src/package/index.test.ts lines 27-31):
`(entity, event) => ({ ...entity, id: event.id, amount: (entity?.amount || 0) + event.amount })`. -/
def addHandler : Option (EntityRec Nat) → EventArg Nat → EntityRec Nat :=
  fun cur ev => ⟨some ev.routeId, false, (cur.map EntityRec.payload).getD 0 + ev.firstPayload⟩

/-- The calculator transition table keyed by the tests' `'add'` event
type. -/
def addTable : HandlerTable Nat Nat :=
  fun t => if t = "add" then some addHandler else none

/-- An absent coordination table (`sideHandlers` not supplied). -/
def noSide : SideTable Nat Nat := fun _ => none

/-- A calculator event as in the tests: a single event with an id, the
`'add'` event type, and an amount. -/
def calcEvent (i : String) (n : Nat) : EventArg Nat :=
  .single ⟨i, ⟨"calc", "add"⟩, n⟩

/-- A transition table whose handler forgets to carry the `id` through
(the domain bug the missing-id error message warns about). -/
def noIdTable : HandlerTable Nat Nat :=
  fun t => if t = "add" then some (fun _ _ => ⟨none, false, 0⟩) else none

/-- A transition table for a `kill` event whose handler marks the entity
deleted and simultaneously changes the entity's own `id` field to `b`. -/
def killTable : HandlerTable Nat Nat :=
  fun t => if t = "kill" then some (fun _ _ => ⟨some "b", true, 0⟩) else none

/-- A coordination table in the style of the cart tests: it rejects with
`Invalid stock` when the updated amount exceeds 5, and passes the updated
entity through otherwise. -/
def rejectSide : SideTable Nat Nat :=
  fun t =>
    if t = "add" then
      some (fun _ _ u => if u.payload > 5 then .error "Invalid stock" else .ok u)
    else none

/-- A coordination table that never rejects but replaces the updated
entity's amount with 999 before persistence. -/
def overrideSide : SideTable Nat Nat :=
  fun t =>
    if t = "add" then some (fun _ _ u => .ok ⟨u.id, false, 999⟩) else none

section StoreLemmas

variable {α : Type}

theorem find?_filter_of_imp (p q : γ → Bool) (h : ∀ x, p x = true → q x = true) :
    ∀ l : List γ, (l.filter q).find? p = l.find? p
  | [] => rfl
  | x :: l => by
    by_cases hq : q x = true
    · by_cases hp : p x = true
      · simp [List.filter_cons, hq, List.find?, hp]
      · simp only [Bool.not_eq_true] at hp
        simp [List.filter_cons, hq, List.find?, hp, find?_filter_of_imp p q h l]
    · have hp : p x = false := by
        cases hpx : p x with
        | true => exact absurd (h x hpx) hq
        | false => rfl
      simp only [Bool.not_eq_true] at hq
      simp [List.filter_cons, hq, List.find?, hp, find?_filter_of_imp p q h l]

theorem persistGet_put_same (s : Store α) (col i : String) (v : EntityRec α) :
    persistGet (persistPut s col i v) col i = some v := by
  simp [persistGet, persistPut, List.find?]

theorem persistGet_put_other (s : Store α) (col i col' j : String) (v : EntityRec α)
    (h : ¬(col' = col ∧ j = i)) :
    persistGet (persistPut s col i v) col' j = persistGet s col' j := by
  have hne : ((col == col') && (i == j)) = false := by
    by_cases hc : col = col'
    · by_cases hi : i = j
      · exact absurd ⟨hc.symm, hi.symm⟩ h
      · simp [hi]
    · simp [hc]
  unfold persistGet persistPut
  rw [List.find?]
  simp only [hne]
  rw [find?_filter_of_imp]
  intro x hx
  simp only [Bool.and_eq_true, beq_iff_eq] at hx
  by_cases hc : x.1.1 = col
  · by_cases hi : x.1.2 = i
    · exact absurd ⟨hx.1 ▸ hc, hx.2 ▸ hi⟩ h
    · simp [hi]
  · simp [hc]

theorem persistGet_remove_same (s : Store α) (col i : String) :
    persistGet (persistRemove s col i) col i = none := by
  unfold persistGet persistRemove
  have : (s.filter (fun kv => !(kv.1.1 == col && kv.1.2 == i))).find?
      (fun kv => kv.1.1 == col && kv.1.2 == i) = none := by
    rw [List.find?_eq_none]
    intro x hx
    have hq := List.of_mem_filter hx
    simp only [Bool.not_eq_true'] at hq
    simp [hq]
  rw [this]
  rfl

theorem persistGet_remove_other (s : Store α) (col i col' j : String)
    (h : ¬(col' = col ∧ j = i)) :
    persistGet (persistRemove s col i) col' j = persistGet s col' j := by
  unfold persistGet persistRemove
  rw [find?_filter_of_imp]
  intro x hx
  simp only [Bool.and_eq_true, beq_iff_eq] at hx
  by_cases hc : x.1.1 = col
  · by_cases hi : x.1.2 = i
    · exact absurd ⟨hx.1 ▸ hc, hx.2 ▸ hi⟩ h
    · simp [hi]
  · simp [hc]

end StoreLemmas

section CycleLemmas

variable {α β : Type}

theorem persistStep_deleted (s : Store α) (col eid et : String) (v : EntityRec α)
    (h : v.deleted = true) :
    persistStep s col eid et v =
      (persistRemove s col eid, [.remove col eid], .ok ⟨v, ⟨col, et⟩⟩) := by
  simp [persistStep, h]

theorem persistStep_put (s : Store α) (col eid et i : String) (v : EntityRec α)
    (hdel : v.deleted = false) (hid : v.id = some i) (hne : i ≠ "") :
    persistStep s col eid et v =
      (persistPut s col i v, [.put col i], .ok ⟨v, ⟨col, et⟩⟩) := by
  simp [persistStep, hdel, hid, truthyId, hne]

theorem persistStep_missingId (s : Store α) (col eid et : String) (v : EntityRec α)
    (hdel : v.deleted = false) (hid : truthyId v.id = false) :
    persistStep s col eid et v = (s, [], .error .missingId) := by
  simp [persistStep, hdel, hid]

/-- Every cycle's trace starts with the checkout fetch, which observes
exactly the store's current record under the routing id. -/
theorem cycle_trace_head (ct : String) (s : Store α) (col : String)
    (hs : HandlerTable α β) (e : EventArg β) (ss : SideTable α β) :
    ((cycle ct s col hs e ss).2.1).head? =
      some (.fetch col e.routeId (persistGet s col e.routeId)) := by
  unfold cycle
  cases hget : persistGet s col e.routeId with
  | some cur => simp [hget]
  | none =>
    by_cases hct : e.routeType = ct <;> simp [hget, hct]

/-- A failed cycle leaves the store untouched and its trace is exactly
the initial fetch: no put and no remove ever happened. -/
theorem cycle_error_shape (ct : String) (s : Store α) (col : String)
    (hs : HandlerTable α β) (e : EventArg β) (ss : SideTable α β) (err : CycleError)
    (herr : (cycle ct s col hs e ss).2.2 = .error err) :
    (cycle ct s col hs e ss).1 = s ∧
    (cycle ct s col hs e ss).2.1 =
      [.fetch col e.routeId (persistGet s col e.routeId)] := by
  unfold cycle at herr ⊢
  cases hget : persistGet s col e.routeId with
  | some cur =>
    simp only [hget] at herr ⊢
    unfold applyStep at herr ⊢
    cases hh : hs e.routeType with
    | none => simp
    | some hf =>
      simp only [hh] at herr ⊢
      cases hss : ss e.routeType with
      | some sh =>
        simp only [hss] at herr ⊢
        cases hsr : sh (some cur) e (hf (some cur) e) with
        | error m => simp
        | ok hd =>
          simp only [hsr] at herr ⊢
          unfold persistStep at herr ⊢
          by_cases hdel : hd.deleted
          · simp [hdel] at herr
          · by_cases hid : truthyId hd.id
            · simp [hdel, hid] at herr
            · simp [hdel, hid]
      | none =>
        simp only [hss] at herr ⊢
        unfold persistStep at herr ⊢
        by_cases hdel : (hf (some cur) e).deleted
        · simp [hdel] at herr
        · by_cases hid : truthyId (hf (some cur) e).id
          · simp [hdel, hid] at herr
          · simp [hdel, hid]
  | none =>
    by_cases hct : e.routeType = ct
    · simp only [hget, hct, if_pos rfl] at herr ⊢
      unfold applyStep at herr ⊢
      cases hh : hs e.routeType with
      | none => simp
      | some hf =>
        simp only [hh] at herr ⊢
        cases hss : ss e.routeType with
        | some sh =>
          simp only [hss] at herr ⊢
          cases hsr : sh none e (hf none e) with
          | error m => simp
          | ok hd =>
            simp only [hsr] at herr ⊢
            unfold persistStep at herr ⊢
            by_cases hdel : hd.deleted
            · simp [hdel] at herr
            · by_cases hid : truthyId hd.id
              · simp [hdel, hid] at herr
              · simp [hdel, hid]
        | none =>
          simp only [hss] at herr ⊢
          unfold persistStep at herr ⊢
          by_cases hdel : (hf none e).deleted
          · simp [hdel] at herr
          · by_cases hid : truthyId (hf none e).id
            · simp [hdel, hid] at herr
            · simp [hdel, hid]
    · simp [hget, hct]

/-- A successful cycle's settled value carries the routing meta, and the
store interaction after the fetch is exactly one write: a remove under
the event's id when the settled entity is deleted, otherwise a put under
the settled entity's own (present, non-empty) id. -/
theorem cycle_ok_shape (ct : String) (s : Store α) (col : String)
    (hs : HandlerTable α β) (e : EventArg β) (ss : SideTable α β) (v : Settled α)
    (hok : (cycle ct s col hs e ss).2.2 = .ok v) :
    v.meta = ⟨col, e.routeType⟩ ∧
    ((v.entity.deleted = true ∧
        (cycle ct s col hs e ss).1 = persistRemove s col e.routeId ∧
        (cycle ct s col hs e ss).2.1 =
          [.fetch col e.routeId (persistGet s col e.routeId),
           .remove col e.routeId]) ∨
     (∃ i, v.entity.deleted = false ∧ v.entity.id = some i ∧ i ≠ "" ∧
        (cycle ct s col hs e ss).1 = persistPut s col i v.entity ∧
        (cycle ct s col hs e ss).2.1 =
          [.fetch col e.routeId (persistGet s col e.routeId),
           .put col i])) := by
  unfold cycle at hok ⊢
  cases hget : persistGet s col e.routeId with
  | some cur =>
    simp only [hget] at hok ⊢
    unfold applyStep at hok ⊢
    cases hh : hs e.routeType with
    | none => simp [hh] at hok
    | some hf =>
      simp only [hh] at hok ⊢
      cases hss : ss e.routeType with
      | some sh =>
        simp only [hss] at hok ⊢
        cases hsr : sh (some cur) e (hf (some cur) e) with
        | error m => simp [hsr] at hok
        | ok hd =>
          simp only [hsr] at hok ⊢
          unfold persistStep at hok ⊢
          by_cases hdel : hd.deleted = true
          · rw [if_pos hdel] at hok ⊢
            injection hok with hok2
            subst hok2
            exact ⟨rfl, Or.inl ⟨hdel, rfl, rfl⟩⟩
          · cases hidv : hd.id with
            | none =>
              rw [if_neg hdel, if_neg (by simp [truthyId, hidv])] at hok
              simp at hok
            | some i =>
              by_cases hie : i = ""
              · rw [if_neg hdel, if_neg (by simp [truthyId, hidv, hie])] at hok
                simp at hok
              · rw [if_neg hdel, if_pos (by simp [truthyId, hidv, hie])] at hok ⊢
                injection hok with hok2
                subst hok2
                refine ⟨rfl, Or.inr ⟨i, by simpa using hdel, hidv, hie, ?_, ?_⟩⟩
                · simp [hidv]
                · simp [hidv]
      | none =>
        simp only [hss] at hok ⊢
        unfold persistStep at hok ⊢
        by_cases hdel : (hf (some cur) e).deleted = true
        · rw [if_pos hdel] at hok ⊢
          injection hok with hok2
          subst hok2
          exact ⟨rfl, Or.inl ⟨hdel, rfl, rfl⟩⟩
        · cases hidv : (hf (some cur) e).id with
          | none =>
            rw [if_neg hdel, if_neg (by simp [truthyId, hidv])] at hok
            simp at hok
          | some i =>
            by_cases hie : i = ""
            · rw [if_neg hdel, if_neg (by simp [truthyId, hidv, hie])] at hok
              simp at hok
            · rw [if_neg hdel, if_pos (by simp [truthyId, hidv, hie])] at hok ⊢
              injection hok with hok2
              subst hok2
              refine ⟨rfl, Or.inr ⟨i, by simpa using hdel, hidv, hie, ?_, ?_⟩⟩
              · simp [hidv]
              · simp [hidv]
  | none =>
    by_cases hct : e.routeType = ct
    · subst hct
      simp only [hget, eq_self_iff_true, ite_true] at hok ⊢
      unfold applyStep at hok ⊢
      cases hh : hs e.routeType with
      | none => simp [hh] at hok
      | some hf =>
        simp only [hh] at hok ⊢
        cases hss : ss e.routeType with
        | some sh =>
          simp only [hss] at hok ⊢
          cases hsr : sh none e (hf none e) with
          | error m => simp [hsr] at hok
          | ok hd =>
            simp only [hsr] at hok ⊢
            unfold persistStep at hok ⊢
            by_cases hdel : hd.deleted = true
            · rw [if_pos hdel] at hok ⊢
              injection hok with hok2
              subst hok2
              exact ⟨rfl, Or.inl ⟨hdel, rfl, rfl⟩⟩
            · cases hidv : hd.id with
              | none =>
                rw [if_neg hdel, if_neg (by simp [truthyId, hidv])] at hok
                simp at hok
              | some i =>
                by_cases hie : i = ""
                · rw [if_neg hdel, if_neg (by simp [truthyId, hidv, hie])] at hok
                  simp at hok
                · rw [if_neg hdel, if_pos (by simp [truthyId, hidv, hie])] at hok ⊢
                  injection hok with hok2
                  subst hok2
                  refine ⟨rfl, Or.inr ⟨i, by simpa using hdel, hidv, hie, ?_, ?_⟩⟩
                  · simp [hidv]
                  · simp [hidv]
        | none =>
          simp only [hss] at hok ⊢
          unfold persistStep at hok ⊢
          by_cases hdel : (hf none e).deleted = true
          · rw [if_pos hdel] at hok ⊢
            injection hok with hok2
            subst hok2
            exact ⟨rfl, Or.inl ⟨hdel, rfl, rfl⟩⟩
          · cases hidv : (hf none e).id with
            | none =>
              rw [if_neg hdel, if_neg (by simp [truthyId, hidv])] at hok
              simp at hok
            | some i =>
              by_cases hie : i = ""
              · rw [if_neg hdel, if_neg (by simp [truthyId, hidv, hie])] at hok
                simp at hok
              · rw [if_neg hdel, if_pos (by simp [truthyId, hidv, hie])] at hok ⊢
                injection hok with hok2
                subst hok2
                refine ⟨rfl, Or.inr ⟨i, by simpa using hdel, hidv, hie, ?_, ?_⟩⟩
                · simp [hidv]
                · simp [hidv]
    · simp [hget, hct] at hok

/-- Under a successful fetch-tolerance path, an existing transition
function, and a pass-through (or absent) coordination function, a cycle
is the fetch followed by the persist step on the transition's output. -/
theorem cycle_compute (ct : String) (s : Store α) (col : String)
    (hs : HandlerTable α β) (e : EventArg β) (ss : SideTable α β)
    (cur : Option (EntityRec α)) (hf : Option (EntityRec α) → EventArg β → EntityRec α)
    (hget : persistGet s col e.routeId = cur)
    (htol : cur = none → e.routeType = ct)
    (hh : hs e.routeType = some hf)
    (hpass : ∀ f, ss e.routeType = some f → f cur e (hf cur e) = .ok (hf cur e)) :
    cycle ct s col hs e ss =
      ((persistStep s col e.routeId e.routeType (hf cur e)).1,
       .fetch col e.routeId cur ::
         (persistStep s col e.routeId e.routeType (hf cur e)).2.1,
       (persistStep s col e.routeId e.routeType (hf cur e)).2.2) := by
  unfold cycle
  cases cur with
  | some c =>
    simp only [hget]
    unfold applyStep
    simp only [hh]
    cases hss : ss e.routeType with
    | some sh => simp [hpass sh hss]
    | none => simp
  | none =>
    have hct := htol rfl
    subst hct
    simp only [hget, eq_self_iff_true, ite_true]
    unfold applyStep
    simp only [hh]
    cases hss : ss e.routeType with
    | some sh => simp [hpass sh hss]
    | none => simp

end CycleLemmas

section ServiceLemmas

variable {α β : Type}

/-- Unfolding of the service on a first event whose cycle succeeds: the
rest of the stream is processed against the store the first cycle left
behind, and the traces concatenate in order. -/
theorem serviceRun_cons_ok (col : String) (hs : HandlerTable α β)
    (ss : SideTable α β) (e : EventArg β) (rest : List (EventArg β))
    (s : Store α) (v : Settled α)
    (hok : (entityEventHandler s col hs e ss).2.2 = .ok v) :
    entityServiceFactory col hs ss (e :: rest) s =
      ⟨(entityServiceFactory col hs ss rest (entityEventHandler s col hs e ss).1).store,
       v :: (entityServiceFactory col hs ss rest (entityEventHandler s col hs e ss).1).outputs,
       (entityEventHandler s col hs e ss).2.1 ++
         (entityServiceFactory col hs ss rest (entityEventHandler s col hs e ss).1).trace,
       (entityServiceFactory col hs ss rest (entityEventHandler s col hs e ss).1).err⟩ := by
  conv in entityServiceFactory col hs ss (e :: rest) s => unfold entityServiceFactory
  simp only [hok]

/-- Unfolding of the service on a first event whose cycle fails: the
output stream errors and no further event is processed. -/
theorem serviceRun_cons_error (col : String) (hs : HandlerTable α β)
    (ss : SideTable α β) (e : EventArg β) (rest : List (EventArg β))
    (s : Store α) (err : CycleError)
    (herr : (entityEventHandler s col hs e ss).2.2 = .error err) :
    entityServiceFactory col hs ss (e :: rest) s =
      ⟨(entityEventHandler s col hs e ss).1, [],
       (entityEventHandler s col hs e ss).2.1, some err⟩ := by
  conv in entityServiceFactory col hs ss (e :: rest) s => unfold entityServiceFactory
  simp only [herr]

end ServiceLemmas

section Claims

variable {α β : Type}

/-- C1: cycles of one entity-service instance run strictly sequentially
in event-arrival order: the whole trace is the first cycle's actions
followed by the second cycle's actions, the first cycle's trace ends
with its put, the second cycle's trace begins with its fetch, and — for
back-to-back events on the same id — that fetch observes exactly the
entity the first cycle persisted. -/
theorem service_cycles_sequential (col : String) (hs : HandlerTable α β)
    (ss : SideTable α β) (e1 e2 : EventArg β) (rest : List (EventArg β))
    (s : Store α) (v1 : Settled α) (i : String)
    (hok : (entityEventHandler s col hs e1 ss).2.2 = .ok v1)
    (hdel : v1.entity.deleted = false)
    (hid : v1.entity.id = some i)
    (hroute : e2.routeId = i) :
    (∃ trRest,
      (entityServiceFactory col hs ss (e1 :: e2 :: rest) s).trace =
        (entityEventHandler s col hs e1 ss).2.1 ++
        ((entityEventHandler (entityEventHandler s col hs e1 ss).1 col hs e2 ss).2.1
          ++ trRest)) ∧
    ((entityEventHandler s col hs e1 ss).2.1).getLast? = some (.put col i) ∧
    ((entityEventHandler (entityEventHandler s col hs e1 ss).1 col hs e2 ss).2.1).head? =
      some (.fetch col i (some v1.entity)) := by
  obtain ⟨-, hcase⟩ := cycle_ok_shape "add" s col hs e1 ss v1 hok
  rcases hcase with ⟨hdel', -, -⟩ | ⟨i', hdel', hid', hne', hst', htr'⟩
  · rw [hdel] at hdel'; cases hdel'
  · have hii : i' = i := by rw [hid] at hid'; exact (Option.some.inj hid').symm
    subst hii
    have hstE : (entityEventHandler s col hs e1 ss).1 = persistPut s col i' v1.entity := hst'
    have htrE : (entityEventHandler s col hs e1 ss).2.1 =
        [.fetch col e1.routeId (persistGet s col e1.routeId), .put col i'] := htr'
    refine ⟨?_, ?_, ?_⟩
    · cases h2 : (entityEventHandler (entityEventHandler s col hs e1 ss).1 col hs e2 ss).2.2 with
      | ok v2 =>
        refine ⟨(entityServiceFactory col hs ss rest
          (entityEventHandler (entityEventHandler s col hs e1 ss).1 col hs e2 ss).1).trace, ?_⟩
        rw [serviceRun_cons_ok col hs ss e1 (e2 :: rest) s v1 hok]
        rw [serviceRun_cons_ok col hs ss e2 rest _ v2 h2]
      | error err =>
        refine ⟨[], ?_⟩
        rw [serviceRun_cons_ok col hs ss e1 (e2 :: rest) s v1 hok]
        rw [serviceRun_cons_error col hs ss e2 rest _ err h2]
        simp
    · rw [htrE]
      rfl
    · have hheadE : (entityEventHandler (entityEventHandler s col hs e1 ss).1 col hs e2 ss).2.1.head?
          = some (.fetch col e2.routeId
              (persistGet (entityEventHandler s col hs e1 ss).1 col e2.routeId)) :=
        cycle_trace_head "add" (entityEventHandler s col hs e1 ss).1 col hs e2 ss
      rw [hheadE, hstE, hroute, persistGet_put_same]

/-- C1 witness: the calculator domain of the repository's tests, two
`add` events for id `x` with amounts 1 then 2 on a fresh store. -/
theorem service_cycles_sequential_witness :
    (∃ trRest,
      (entityServiceFactory "line" addTable noSide
          [calcEvent "x" 1, calcEvent "x" 2] ([] : Store Nat)).trace =
        (entityEventHandler ([] : Store Nat) "line" addTable (calcEvent "x" 1) noSide).2.1 ++
        ((entityEventHandler
            (entityEventHandler ([] : Store Nat) "line" addTable (calcEvent "x" 1) noSide).1
            "line" addTable (calcEvent "x" 2) noSide).2.1 ++ trRest)) ∧
    ((entityEventHandler ([] : Store Nat) "line" addTable (calcEvent "x" 1) noSide).2.1).getLast?
      = some (.put "line" "x") ∧
    ((entityEventHandler
        (entityEventHandler ([] : Store Nat) "line" addTable (calcEvent "x" 1) noSide).1
        "line" addTable (calcEvent "x" 2) noSide).2.1).head? =
      some (.fetch "line" "x" (some ⟨some "x", false, 1⟩)) :=
  service_cycles_sequential "line" addTable noSide (calcEvent "x" 1) (calcEvent "x" 2)
    [] ([] : Store Nat) ⟨⟨some "x", false, 1⟩, ⟨"line", "add"⟩⟩ "x"
    (by decide) (by decide) (by decide) (by decide)

/-- C5: the persist phase is exactly one of two exclusive actions — a
successful cycle's writes are exactly one remove (deleted case, keyed by
the event id) or exactly one put (keyed by the settled entity's own
non-empty id); a settled non-deleted entity with a falsy id makes the
cycle fail with the missing-id error; and a failed cycle performs no
store mutation at all. -/
theorem persist_exactly_one_write (s : Store α) (col : String)
    (hs : HandlerTable α β) (e : EventArg β) (ss : SideTable α β) :
    (∀ v, (entityEventHandler s col hs e ss).2.2 = .ok v →
      (entityEventHandler s col hs e ss).2.1.filter StoreAction.isWrite =
        (if v.entity.deleted then [.remove col e.routeId]
         else [.put col (v.entity.id.getD "")])) ∧
    (∀ err, (entityEventHandler s col hs e ss).2.2 = .error err →
      countWrites (entityEventHandler s col hs e ss).2.1 = 0 ∧
      (entityEventHandler s col hs e ss).1 = s) ∧
    (∀ cur hf, persistGet s col e.routeId = cur →
      (cur = none → e.routeType = "add") →
      hs e.routeType = some hf →
      (∀ f, ss e.routeType = some f → f cur e (hf cur e) = .ok (hf cur e)) →
      (hf cur e).deleted = false → truthyId (hf cur e).id = false →
      (entityEventHandler s col hs e ss).2.2 = .error .missingId) := by
  refine ⟨?_, ?_, ?_⟩
  · intro v hok
    obtain ⟨-, hcase⟩ := cycle_ok_shape "add" s col hs e ss v hok
    rcases hcase with ⟨hdel, -, htr⟩ | ⟨i, hdel, hid, hne, -, htr⟩
    · have htrE : (entityEventHandler s col hs e ss).2.1 =
          [.fetch col e.routeId (persistGet s col e.routeId),
           .remove col e.routeId] := htr
      rw [htrE, hdel]
      rfl
    · have htrE : (entityEventHandler s col hs e ss).2.1 =
          [.fetch col e.routeId (persistGet s col e.routeId), .put col i] := htr
      rw [htrE, hdel, hid]
      rfl
  · intro err herr
    obtain ⟨hst, htr⟩ := cycle_error_shape "add" s col hs e ss err herr
    have htrE : (entityEventHandler s col hs e ss).2.1 =
        [.fetch col e.routeId (persistGet s col e.routeId)] := htr
    exact ⟨by rw [countWrites, htrE]; rfl, hst⟩
  · intro cur hf hget htol hh hpass hdel hid
    have hcc := cycle_compute "add" s col hs e ss cur hf hget htol hh hpass
    have hps := persistStep_missingId s col e.routeId e.routeType (hf cur e) hdel hid
    have : entityEventHandler s col hs e ss =
        ((persistStep s col e.routeId e.routeType (hf cur e)).1,
         .fetch col e.routeId cur ::
           (persistStep s col e.routeId e.routeType (hf cur e)).2.1,
         (persistStep s col e.routeId e.routeType (hf cur e)).2.2) := hcc
    rw [this, hps]

/-- C5 witness: a put-producing cycle writes exactly one put; a cycle
failing on a fresh non-creation fetch performs zero writes and leaves
the store as it was; a handler output lacking an id yields the
missing-id error. -/
theorem persist_exactly_one_write_witness :
    (entityEventHandler ([] : Store Nat) "line" addTable (calcEvent "x" 1)
        noSide).2.1.filter StoreAction.isWrite = [.put "line" "x"] ∧
    (countWrites (entityEventHandler ([] : Store Nat) "line" addTable
        (.single ⟨"x", ⟨"calc", "zap"⟩, 0⟩) noSide).2.1 = 0 ∧
      (entityEventHandler ([] : Store Nat) "line" addTable
        (.single ⟨"x", ⟨"calc", "zap"⟩, 0⟩) noSide).1 = ([] : Store Nat)) ∧
    (entityEventHandler ([] : Store Nat) "line" noIdTable (calcEvent "x" 1)
        noSide).2.2 = .error .missingId := by
  refine ⟨?_, ?_, ?_⟩
  · have h := (persist_exactly_one_write ([] : Store Nat) "line" addTable
      (calcEvent "x" 1) noSide).1
      ⟨⟨some "x", false, 1⟩, ⟨"line", "add"⟩⟩ (by decide)
    rw [h]
    decide
  · exact (persist_exactly_one_write ([] : Store Nat) "line" addTable
      (.single ⟨"x", ⟨"calc", "zap"⟩, 0⟩) noSide).2.1
      (.notFound "x") (by decide)
  · exact (persist_exactly_one_write ([] : Store Nat) "line" noIdTable
      (calcEvent "x" 1) noSide).2.2
      none (fun _ _ => ⟨none, false, 0⟩) (by decide) (fun _ => by decide)
      rfl (fun f hf => Option.noConfusion hf) (by decide) (by decide)

/-- C6: an event whose type has no entry in the transition table makes
the cycle fail with an error — it never silently no-ops: no store write
happens and the store is unchanged. -/
theorem missing_transition_fails_fast (s : Store α) (col : String)
    (hs : HandlerTable α β) (e : EventArg β) (ss : SideTable α β)
    (hmiss : hs e.routeType = none) :
    (∃ err, (entityEventHandler s col hs e ss).2.2 = .error err) ∧
    countWrites (entityEventHandler s col hs e ss).2.1 = 0 ∧
    (entityEventHandler s col hs e ss).1 = s := by
  have herr : ∃ err, (cycle "add" s col hs e ss).2.2 = .error err := by
    unfold cycle
    cases hget : persistGet s col e.routeId with
    | some cur =>
      unfold applyStep
      simp [hmiss]
    | none =>
      by_cases hct : e.routeType = "add"
      · simp only [hget, hct, eq_self_iff_true, ite_true]
        unfold applyStep
        rw [hct] at hmiss
        simp [hmiss, hct]
      · simp [hget, hct]
  obtain ⟨err, herr⟩ := herr
  obtain ⟨hst, htr⟩ := cycle_error_shape "add" s col hs e ss err herr
  have htrE : (entityEventHandler s col hs e ss).2.1 =
      [.fetch col e.routeId (persistGet s col e.routeId)] := htr
  exact ⟨⟨err, herr⟩, by rw [countWrites, htrE]; rfl, hst⟩

/-- C6 witness: a `zap` event against the calculator table (which only
knows `add`) fails with an error, writes nothing, and leaves the store
unchanged, on a store already holding a record for the id. -/
theorem missing_transition_fails_fast_witness :
    (∃ err, (entityEventHandler
        ([(("line", "x"), ⟨some "x", false, 4⟩)] : Store Nat) "line" addTable
        (.single ⟨"x", ⟨"calc", "zap"⟩, 0⟩) noSide).2.2 = .error err) ∧
    countWrites (entityEventHandler
        ([(("line", "x"), ⟨some "x", false, 4⟩)] : Store Nat) "line" addTable
        (.single ⟨"x", ⟨"calc", "zap"⟩, 0⟩) noSide).2.1 = 0 ∧
    (entityEventHandler
        ([(("line", "x"), ⟨some "x", false, 4⟩)] : Store Nat) "line" addTable
        (.single ⟨"x", ⟨"calc", "zap"⟩, 0⟩) noSide).1 =
      ([(("line", "x"), ⟨some "x", false, 4⟩)] : Store Nat) :=
  missing_transition_fails_fast
    ([(("line", "x"), ⟨some "x", false, 4⟩)] : Store Nat) "line" addTable
    (.single ⟨"x", ⟨"calc", "zap"⟩, 0⟩) noSide rfl

/-- On a fetch miss, a cycle re-raises unless the event type equals the
pipeline's hard-coded sentinel, in which case it continues with an
absent current entity. -/
theorem cycle_fetch_miss (ct : String) (s : Store α) (col : String)
    (hs : HandlerTable α β) (e : EventArg β) (ss : SideTable α β)
    (hmiss : persistGet s col e.routeId = none) :
    (e.routeType ≠ ct →
      cycle ct s col hs e ss =
        (s, [.fetch col e.routeId none], .error (.notFound e.routeId))) ∧
    (e.routeType = ct →
      cycle ct s col hs e ss =
        ((applyStep s col hs e ss none).1,
         .fetch col e.routeId none :: (applyStep s col hs e ss none).2.1,
         (applyStep s col hs e ss none).2.2)) := by
  unfold cycle
  constructor
  · intro hne
    simp [hmiss, hne]
  · intro heq
    simp [hmiss, heq]

/-- C3 counterexample: with the repository's own calculator
configuration — whose transition table designates `add` as the creation
event type — a fetch miss on `src/package/index.ts`'s handler is *not*
tolerated (it re-raises NotFound and writes nothing), while the
`src/unnamed/part_001` handler accepts the very same input: the
tolerated sentinel is a literal hard-coded per pipeline variant, not a
configuration constant shared with the caller's transition table. -/
theorem creation_sentinel_not_shared_counterexample :
    (Pkg.entityEventHandler ([] : Store Nat) "line" addTable
        (calcEvent "x" 1)).2.2 = .error (.notFound "x") ∧
    countWrites (Pkg.entityEventHandler ([] : Store Nat) "line" addTable
        (calcEvent "x" 1)).2.1 = 0 ∧
    (entityEventHandler ([] : Store Nat) "line" addTable (calcEvent "x" 1)
        noSide).2.2 = .ok ⟨⟨some "x", false, 1⟩, ⟨"line", "add"⟩⟩ := by
  decide

/-- C3 amended: a fetch that fails because no record exists is tolerated
(the cycle continues with an absent current entity) iff the event's type
equals the literal hard-coded in each pipeline variant — `'add'` in
src/unnamed/part_001, `'new'` in src/package/index.ts; for any other
event type the error is re-raised and no write occurs. -/
theorem creation_sentinel_hardcoded (s : Store α) (col : String)
    (hs : HandlerTable α β) (e : EventArg β) (ss : SideTable α β)
    (hmiss : persistGet s col e.routeId = none) :
    ((e.routeType ≠ "add" →
        entityEventHandler s col hs e ss =
          (s, [.fetch col e.routeId none], .error (.notFound e.routeId))) ∧
     (e.routeType = "add" →
        entityEventHandler s col hs e ss =
          ((applyStep s col hs e ss none).1,
           .fetch col e.routeId none :: (applyStep s col hs e ss none).2.1,
           (applyStep s col hs e ss none).2.2))) ∧
    ((e.routeType ≠ "new" →
        Pkg.entityEventHandler s col hs e =
          (s, [.fetch col e.routeId none], .error (.notFound e.routeId))) ∧
     (e.routeType = "new" →
        Pkg.entityEventHandler s col hs e =
          ((applyStep s col hs e (fun _ => none) none).1,
           .fetch col e.routeId none ::
             (applyStep s col hs e (fun _ => none) none).2.1,
           (applyStep s col hs e (fun _ => none) none).2.2))) :=
  ⟨cycle_fetch_miss "add" s col hs e ss hmiss,
   cycle_fetch_miss "new" s col hs e (fun _ => none) hmiss⟩

/-- C3 witness: a `zap` event on an empty store is re-raised by both
variants with no write. -/
theorem creation_sentinel_hardcoded_witness :
    entityEventHandler ([] : Store Nat) "line" addTable
        (.single ⟨"x", ⟨"calc", "zap"⟩, 0⟩) noSide =
      (([] : Store Nat), [.fetch "line" "x" none], .error (.notFound "x")) ∧
    Pkg.entityEventHandler ([] : Store Nat) "line" addTable
        (.single ⟨"x", ⟨"calc", "zap"⟩, 0⟩) =
      (([] : Store Nat), [.fetch "line" "x" none], .error (.notFound "x")) :=
  ⟨(creation_sentinel_hardcoded ([] : Store Nat) "line" addTable
      (.single ⟨"x", ⟨"calc", "zap"⟩, 0⟩) noSide (by decide)).1.1 (by decide),
   (creation_sentinel_hardcoded ([] : Store Nat) "line" addTable
      (.single ⟨"x", ⟨"calc", "zap"⟩, 0⟩) noSide (by decide)).2.1 (by decide)⟩

/-- C4: a registered coordination function is invoked with
(currentEntity, event, updatedEntity) — also on a tolerated creation
miss, where currentEntity is absent; when it returns, its result — not
the transition's output — is what the persist step receives; when it
raises, the cycle performs no put and no remove, the error propagates as
the cycle's rejection, and the store (in particular the record for the
event's id) is exactly its pre-cycle value. -/
theorem coordination_replaces_or_aborts (s : Store α) (col : String)
    (hs : HandlerTable α β) (ss : SideTable α β) (e : EventArg β)
    (cur : Option (EntityRec α))
    (hf : Option (EntityRec α) → EventArg β → EntityRec α)
    (f : Option (EntityRec α) → EventArg β → EntityRec α →
      Except String (EntityRec α))
    (hget : persistGet s col e.routeId = cur)
    (htol : cur = none → e.routeType = "add")
    (hh : hs e.routeType = some hf)
    (hss : ss e.routeType = some f) :
    (∀ m, f cur e (hf cur e) = .error m →
      entityEventHandler s col hs e ss =
        (s, [.fetch col e.routeId cur], .error (.coordination m)) ∧
      persistGet (entityEventHandler s col hs e ss).1 col e.routeId = cur) ∧
    (∀ v, f cur e (hf cur e) = .ok v →
      entityEventHandler s col hs e ss =
        ((persistStep s col e.routeId e.routeType v).1,
         .fetch col e.routeId cur ::
           (persistStep s col e.routeId e.routeType v).2.1,
         (persistStep s col e.routeId e.routeType v).2.2)) := by
  constructor
  · intro m hm
    have heq : entityEventHandler s col hs e ss =
        (s, [.fetch col e.routeId cur], .error (.coordination m)) := by
      cases cur with
      | some c =>
        unfold entityEventHandler cycle
        simp only [hget]
        unfold applyStep
        simp [hh, hss, hm]
      | none =>
        have hct := htol rfl
        rw [hct] at hh hss
        unfold entityEventHandler cycle
        simp only [hget, hct, eq_self_iff_true, ite_true]
        unfold applyStep
        simp [hh, hss, hm, hct]
    exact ⟨heq, by rw [heq]; exact hget⟩
  · intro v hv
    cases cur with
    | some c =>
      unfold entityEventHandler cycle
      simp only [hget]
      unfold applyStep
      simp [hh, hss, hv]
    | none =>
      have hct := htol rfl
      rw [hct] at hh hss
      unfold entityEventHandler cycle
      simp only [hget, hct, eq_self_iff_true, ite_true]
      unfold applyStep
      simp [hh, hss, hv, hct]

/-- C4 witness: on an existing record the stock-style coordination
function rejects an `add` of 3 onto amount 4 (7 > 5) with
`Invalid stock`, leaving the record at amount 4, and passes an `add` of
1 through to persistence; on a tolerated creation miss (absent current
entity) it likewise rejects an `add` of 9 leaving the empty store
untouched, and passes an `add` of 2 through to persistence. -/
theorem coordination_replaces_or_aborts_witness :
    (entityEventHandler ([(("line", "x"), ⟨some "x", false, 4⟩)] : Store Nat)
        "line" addTable (calcEvent "x" 3) rejectSide =
      (([(("line", "x"), ⟨some "x", false, 4⟩)] : Store Nat),
       [.fetch "line" "x" (some ⟨some "x", false, 4⟩)],
       .error (.coordination "Invalid stock")) ∧
     persistGet (entityEventHandler
        ([(("line", "x"), ⟨some "x", false, 4⟩)] : Store Nat)
        "line" addTable (calcEvent "x" 3) rejectSide).1 "line" "x" =
       some ⟨some "x", false, 4⟩) ∧
    entityEventHandler ([(("line", "x"), ⟨some "x", false, 4⟩)] : Store Nat)
        "line" addTable (calcEvent "x" 1) rejectSide =
      ((persistStep ([(("line", "x"), ⟨some "x", false, 4⟩)] : Store Nat)
          "line" "x" "add" ⟨some "x", false, 5⟩).1,
       .fetch "line" "x" (some ⟨some "x", false, 4⟩) ::
         (persistStep ([(("line", "x"), ⟨some "x", false, 4⟩)] : Store Nat)
           "line" "x" "add" ⟨some "x", false, 5⟩).2.1,
       (persistStep ([(("line", "x"), ⟨some "x", false, 4⟩)] : Store Nat)
          "line" "x" "add" ⟨some "x", false, 5⟩).2.2) ∧
    (entityEventHandler ([] : Store Nat)
        "line" addTable (calcEvent "x" 9) rejectSide =
      (([] : Store Nat), [.fetch "line" "x" none],
       .error (.coordination "Invalid stock")) ∧
     persistGet (entityEventHandler ([] : Store Nat)
        "line" addTable (calcEvent "x" 9) rejectSide).1 "line" "x" = none) ∧
    entityEventHandler ([] : Store Nat)
        "line" addTable (calcEvent "x" 2) rejectSide =
      ((persistStep ([] : Store Nat) "line" "x" "add" ⟨some "x", false, 2⟩).1,
       .fetch "line" "x" none ::
         (persistStep ([] : Store Nat) "line" "x" "add"
           ⟨some "x", false, 2⟩).2.1,
       (persistStep ([] : Store Nat) "line" "x" "add"
          ⟨some "x", false, 2⟩).2.2) :=
  ⟨(coordination_replaces_or_aborts
      ([(("line", "x"), ⟨some "x", false, 4⟩)] : Store Nat) "line" addTable
      rejectSide (calcEvent "x" 3) (some ⟨some "x", false, 4⟩) addHandler
      (fun _ _ u => if u.payload > 5 then .error "Invalid stock" else .ok u)
      (by decide) (fun hc => Option.noConfusion hc) rfl rfl).1
      "Invalid stock" (by decide),
   (coordination_replaces_or_aborts
      ([(("line", "x"), ⟨some "x", false, 4⟩)] : Store Nat) "line" addTable
      rejectSide (calcEvent "x" 1) (some ⟨some "x", false, 4⟩) addHandler
      (fun _ _ u => if u.payload > 5 then .error "Invalid stock" else .ok u)
      (by decide) (fun hc => Option.noConfusion hc) rfl rfl).2
      ⟨some "x", false, 5⟩ (by decide),
   (coordination_replaces_or_aborts ([] : Store Nat) "line" addTable
      rejectSide (calcEvent "x" 9) none addHandler
      (fun _ _ u => if u.payload > 5 then .error "Invalid stock" else .ok u)
      (by decide) (fun _ => rfl) rfl rfl).1 "Invalid stock" (by decide),
   (coordination_replaces_or_aborts ([] : Store Nat) "line" addTable
      rejectSide (calcEvent "x" 2) none addHandler
      (fun _ _ u => if u.payload > 5 then .error "Invalid stock" else .ok u)
      (by decide) (fun _ => rfl) rfl rfl).2
      ⟨some "x", false, 2⟩ (by decide)⟩

/-- C7: for an event cluster, the routing id and event type come from
the first element alone, and the handler depends on the cluster's tail
only through what the transition and coordination functions make of the
cluster they receive intact: two clusters with the same head on which
those functions agree produce identical cycles. -/
theorem cluster_routing_and_opacity (s : Store α) (col : String)
    (hs : HandlerTable α β) (ss : SideTable α β) (h : EventRec β)
    (t1 t2 : List (EventRec β))
    (hH : ∀ hf, hs h.meta.eventType = some hf →
      ∀ cur, hf cur (.cluster h t1) = hf cur (.cluster h t2))
    (hS : ∀ f, ss h.meta.eventType = some f →
      ∀ cur u, f cur (.cluster h t1) u = f cur (.cluster h t2) u) :
    (EventArg.cluster h t1).routeId = h.id ∧
    (EventArg.cluster h t1).routeType = h.meta.eventType ∧
    entityEventHandler s col hs (.cluster h t1) ss =
      entityEventHandler s col hs (.cluster h t2) ss := by
  refine ⟨rfl, rfl, ?_⟩
  unfold entityEventHandler cycle
  simp only [EventArg.routeId, EventArg.routeType]
  cases hget : persistGet s col h.id with
  | some cur =>
    unfold applyStep
    simp only [EventArg.routeId, EventArg.routeType]
    cases hh : hs h.meta.eventType with
    | none => rfl
    | some hf =>
      have h1 := hH hf hh (some cur)
      cases hss : ss h.meta.eventType with
      | none =>
        dsimp only
        rw [h1]
      | some f =>
        have h2 := hS f hss (some cur) (hf (some cur) (.cluster h t2))
        dsimp only
        rw [h1, h2]
  | none =>
    by_cases hct : h.meta.eventType = "add"
    · simp only [hct, eq_self_iff_true, ite_true]
      unfold applyStep
      simp only [EventArg.routeId, EventArg.routeType]
      cases hh : hs h.meta.eventType with
      | none => rfl
      | some hf =>
        have h1 := hH hf hh none
        cases hss : ss h.meta.eventType with
        | none =>
          dsimp only
          rw [h1]
        | some f =>
          have h2 := hS f hss none (hf none (.cluster h t2))
          dsimp only
          rw [h1, h2]
    · simp [hct]

/-- C7 witness: a two-event cluster and the same head with an empty
tail route identically and produce the same cycle under the calculator
table, whose transition only reads the cluster's first element. -/
theorem cluster_routing_and_opacity_witness :
    (EventArg.cluster ⟨"x", ⟨"calc", "add"⟩, (1 : Nat)⟩
        [⟨"y", ⟨"calc", "add"⟩, 2⟩]).routeId = "x" ∧
    (EventArg.cluster ⟨"x", ⟨"calc", "add"⟩, (1 : Nat)⟩
        [⟨"y", ⟨"calc", "add"⟩, 2⟩]).routeType = "add" ∧
    entityEventHandler ([] : Store Nat) "line" addTable
        (.cluster ⟨"x", ⟨"calc", "add"⟩, 1⟩ [⟨"y", ⟨"calc", "add"⟩, 2⟩]) noSide =
      entityEventHandler ([] : Store Nat) "line" addTable
        (.cluster ⟨"x", ⟨"calc", "add"⟩, 1⟩ []) noSide :=
  cluster_routing_and_opacity ([] : Store Nat) "line" addTable noSide
    ⟨"x", ⟨"calc", "add"⟩, 1⟩ [⟨"y", ⟨"calc", "add"⟩, 2⟩] []
    (fun hf hh cur => by
      have : addHandler = hf := Option.some.inj hh
      subst this
      rfl)
    (fun f hf => Option.noConfusion hf)

/-- C9: when the settled entity is marked deleted, the remove is keyed
by the incoming event's id, not by the settled entity's own id field: no
id-presence check happens on this branch, the record under the event id
disappears, and every other record — in particular one under the id the
transition moved the entity to — is untouched. -/
theorem delete_removes_by_event_id (s : Store α) (col : String)
    (hs : HandlerTable α β) (ss : SideTable α β) (e : EventArg β)
    (cur : Option (EntityRec α))
    (hf : Option (EntityRec α) → EventArg β → EntityRec α)
    (hget : persistGet s col e.routeId = cur)
    (htol : cur = none → e.routeType = "add")
    (hh : hs e.routeType = some hf)
    (hpass : ∀ f, ss e.routeType = some f → f cur e (hf cur e) = .ok (hf cur e))
    (hdel : (hf cur e).deleted = true) :
    (entityEventHandler s col hs e ss).2.2 =
      .ok ⟨hf cur e, ⟨col, e.routeType⟩⟩ ∧
    (entityEventHandler s col hs e ss).1 = persistRemove s col e.routeId ∧
    persistGet (entityEventHandler s col hs e ss).1 col e.routeId = none ∧
    ∀ j, ¬(j = e.routeId) →
      persistGet (entityEventHandler s col hs e ss).1 col j =
        persistGet s col j := by
  have hcc : entityEventHandler s col hs e ss =
      ((persistStep s col e.routeId e.routeType (hf cur e)).1,
       .fetch col e.routeId cur ::
         (persistStep s col e.routeId e.routeType (hf cur e)).2.1,
       (persistStep s col e.routeId e.routeType (hf cur e)).2.2) :=
    cycle_compute "add" s col hs e ss cur hf hget htol hh hpass
  have hps := persistStep_deleted s col e.routeId e.routeType (hf cur e) hdel
  have heq : entityEventHandler s col hs e ss =
      (persistRemove s col e.routeId,
       [.fetch col e.routeId cur, .remove col e.routeId],
       .ok ⟨hf cur e, ⟨col, e.routeType⟩⟩) := by
    rw [hcc, hps]
  refine ⟨by rw [heq], by rw [heq], ?_, ?_⟩
  · rw [heq]
    exact persistGet_remove_same s col e.routeId
  · intro j hj
    rw [heq]
    exact persistGet_remove_other s col e.routeId col j (fun hc => hj hc.2)

/-- C9 witness: a `kill` event for id `a` whose transition marks the
entity deleted while changing its own id to `b`: the record under `a` is
removed, the record under `b` survives, and the cycle succeeds although
the settled entity's id differs from the event's. -/
theorem delete_removes_by_event_id_witness :
    (entityEventHandler
        ([(("line", "a"), ⟨some "a", false, 1⟩),
          (("line", "b"), ⟨some "b", false, 2⟩)] : Store Nat) "line" killTable
        (.single ⟨"a", ⟨"line", "kill"⟩, 0⟩) noSide).2.2 =
      .ok ⟨⟨some "b", true, 0⟩, ⟨"line", "kill"⟩⟩ ∧
    persistGet (entityEventHandler
        ([(("line", "a"), ⟨some "a", false, 1⟩),
          (("line", "b"), ⟨some "b", false, 2⟩)] : Store Nat) "line" killTable
        (.single ⟨"a", ⟨"line", "kill"⟩, 0⟩) noSide).1 "line" "a" = none ∧
    persistGet (entityEventHandler
        ([(("line", "a"), ⟨some "a", false, 1⟩),
          (("line", "b"), ⟨some "b", false, 2⟩)] : Store Nat) "line" killTable
        (.single ⟨"a", ⟨"line", "kill"⟩, 0⟩) noSide).1 "line" "b" =
      some ⟨some "b", false, 2⟩ := by
  have h := delete_removes_by_event_id
    ([(("line", "a"), ⟨some "a", false, 1⟩),
      (("line", "b"), ⟨some "b", false, 2⟩)] : Store Nat) "line" killTable
    noSide (.single ⟨"a", ⟨"line", "kill"⟩, 0⟩) (some ⟨some "a", false, 1⟩)
    (fun _ _ => ⟨some "b", true, 0⟩) (by decide) (fun hc => Option.noConfusion hc)
    rfl (fun f hf => Option.noConfusion hf) (by decide)
  exact ⟨h.1, h.2.2.1, (h.2.2.2 "b" (by decide)).trans (by decide)⟩

/-- Fold invariant for the entity service: when every event routes to
the same id, every used transition entry agrees with the total family
`hf`, every applicable coordination function passes the updated entity
through unchanged, every transition output is a live entity carrying the
common id, and the whole run settles without error, then the record
under that id after the run is the left-fold of the transitions over the
events, started from the record before the run. -/
theorem service_fold_aux (col : String) (hs : HandlerTable α β)
    (ss : SideTable α β)
    (hf : String → Option (EntityRec α) → EventArg β → EntityRec α)
    (i : String) (hne : i ≠ "") :
    ∀ (events : List (EventArg β)) (s : Store α),
      (∀ e ∈ events, e.routeId = i) →
      (∀ e ∈ events, hs e.routeType = some (hf e.routeType)) →
      (∀ e ∈ events, ∀ f, ss e.routeType = some f → ∀ c u, f c e u = .ok u) →
      (∀ e ∈ events, ∀ c, (hf e.routeType c e).deleted = false ∧
        (hf e.routeType c e).id = some i) →
      (entityServiceFactory col hs ss events s).err = none →
      persistGet (entityServiceFactory col hs ss events s).store col i =
        events.foldl (fun c e => some (hf e.routeType c e)) (persistGet s col i)
  | [], s, _, _, _, _, _ => by simp [entityServiceFactory]
  | e :: rest, s, hi, hh, hpass, hout, herr => by
    have hie : e.routeId = i := hi e (List.mem_cons_self e rest)
    have hhe := hh e (List.mem_cons_self e rest)
    have hpe := hpass e (List.mem_cons_self e rest)
    obtain ⟨hdel, hid⟩ := hout e (List.mem_cons_self e rest)
      (persistGet s col e.routeId)
    by_cases htol : persistGet s col e.routeId = none → e.routeType = "add"
    · have hcc : entityEventHandler s col hs e ss =
          ((persistStep s col e.routeId e.routeType
             (hf e.routeType (persistGet s col e.routeId) e)).1,
           .fetch col e.routeId (persistGet s col e.routeId) ::
             (persistStep s col e.routeId e.routeType
               (hf e.routeType (persistGet s col e.routeId) e)).2.1,
           (persistStep s col e.routeId e.routeType
             (hf e.routeType (persistGet s col e.routeId) e)).2.2) :=
        cycle_compute "add" s col hs e ss (persistGet s col e.routeId)
          (hf e.routeType) rfl htol hhe
          (fun f hfs => hpe f hfs (persistGet s col e.routeId)
            (hf e.routeType (persistGet s col e.routeId) e))
      have hps := persistStep_put s col e.routeId e.routeType i
        (hf e.routeType (persistGet s col e.routeId) e) hdel hid hne
      have heq : entityEventHandler s col hs e ss =
          (persistPut s col i (hf e.routeType (persistGet s col e.routeId) e),
           [.fetch col e.routeId (persistGet s col e.routeId), .put col i],
           .ok ⟨hf e.routeType (persistGet s col e.routeId) e,
             ⟨col, e.routeType⟩⟩) := by
        rw [hcc, hps]
      have hok : (entityEventHandler s col hs e ss).2.2 =
          .ok ⟨hf e.routeType (persistGet s col e.routeId) e,
            ⟨col, e.routeType⟩⟩ := by
        rw [heq]
      have hconsEq := serviceRun_cons_ok col hs ss e rest s _ hok
      have hs1 : (entityEventHandler s col hs e ss).1 =
          persistPut s col i (hf e.routeType (persistGet s col e.routeId) e) := by
        rw [heq]
      have hstore : (entityServiceFactory col hs ss (e :: rest) s).store =
          (entityServiceFactory col hs ss rest
            (persistPut s col i
              (hf e.routeType (persistGet s col e.routeId) e))).store := by
        rw [hconsEq, hs1]
      have herr2 : (entityServiceFactory col hs ss rest
          (persistPut s col i
            (hf e.routeType (persistGet s col e.routeId) e))).err = none := by
        rw [hconsEq, hs1] at herr
        exact herr
      have hrec := service_fold_aux col hs ss hf i hne rest
        (persistPut s col i (hf e.routeType (persistGet s col e.routeId) e))
        (fun e' he' => hi e' (List.mem_cons_of_mem e he'))
        (fun e' he' => hh e' (List.mem_cons_of_mem e he'))
        (fun e' he' => hpass e' (List.mem_cons_of_mem e he'))
        (fun e' he' => hout e' (List.mem_cons_of_mem e he'))
        herr2
      rw [hstore, hrec, persistGet_put_same, List.foldl_cons, hie]
    · push_neg at htol
      have herrEq := (cycle_fetch_miss "add" s col hs e ss htol.1).1 htol.2
      have hE : entityEventHandler s col hs e ss =
          (s, [.fetch col e.routeId none], .error (.notFound e.routeId)) := herrEq
      have hbad : (entityEventHandler s col hs e ss).2.2 =
          .error (.notFound e.routeId) := by
        rw [hE]
      have hcons := serviceRun_cons_error col hs ss e rest s _ hbad
      rw [hcons] at herr
      exact absurd herr (by simp)

/-- C2 counterexample: a coordination function that never rejects but
replaces the amount with 999 makes the run settle without error while
the final persisted entity (amount 999) differs from the left-fold of
the transition functions over the events (amount 3): the claim's
proviso "no coordination function rejects" is not sufficient. -/
theorem service_fold_counterexample :
    (entityServiceFactory "line" addTable overrideSide
        [calcEvent "x" 1, calcEvent "x" 2] ([] : Store Nat)).err = none ∧
    persistGet (entityServiceFactory "line" addTable overrideSide
        [calcEvent "x" 1, calcEvent "x" 2] ([] : Store Nat)).store "line" "x" =
      some ⟨some "x", false, 999⟩ ∧
    List.foldl (fun c e => some (addHandler c e)) none
        [calcEvent "x" 1, calcEvent "x" 2] = some ⟨some "x", false, 3⟩ ∧
    some (⟨some "x", false, 999⟩ : EntityRec Nat) ≠ some ⟨some "x", false, 3⟩ := by
  decide

/-- C2 amended: for a finite sequence of events sharing one id through
one entity-service instance, if the run settles without error and every
applicable coordination function returns the updated entity unchanged
(in particular when none is registered), the final persisted entity is
the left-fold of the transition functions over the event sequence
starting from the absent entity. -/
theorem service_fold_of_transitions (col : String) (hs : HandlerTable α β)
    (ss : SideTable α β)
    (hf : String → Option (EntityRec α) → EventArg β → EntityRec α)
    (i : String) (events : List (EventArg β)) (s : Store α)
    (hne : i ≠ "")
    (hfresh : persistGet s col i = none)
    (hi : ∀ e ∈ events, e.routeId = i)
    (hh : ∀ e ∈ events, hs e.routeType = some (hf e.routeType))
    (hpass : ∀ e ∈ events, ∀ f, ss e.routeType = some f → ∀ c u, f c e u = .ok u)
    (hout : ∀ e ∈ events, ∀ c, (hf e.routeType c e).deleted = false ∧
      (hf e.routeType c e).id = some i)
    (herr : (entityServiceFactory col hs ss events s).err = none) :
    persistGet (entityServiceFactory col hs ss events s).store col i =
      events.foldl (fun c e => some (hf e.routeType c e)) none := by
  have h := service_fold_aux col hs ss hf i hne events s hi hh hpass hout herr
  rw [hfresh] at h
  exact h

/-- C2 witness: the calculator domain of the tests — amounts 1 then 2
settle the record at 3, and amounts 3 then 4 on a fresh entity settle
it at 7. -/
theorem service_fold_of_transitions_witness :
    persistGet (entityServiceFactory "line" addTable noSide
        [calcEvent "x" 1, calcEvent "x" 2] ([] : Store Nat)).store "line" "x" =
      some ⟨some "x", false, 3⟩ ∧
    persistGet (entityServiceFactory "line" addTable noSide
        [calcEvent "y" 3, calcEvent "y" 4] ([] : Store Nat)).store "line" "y" =
      some ⟨some "y", false, 7⟩ := by
  constructor
  · have h := service_fold_of_transitions "line" addTable noSide
      (fun _ => addHandler) "x" [calcEvent "x" 1, calcEvent "x" 2]
      ([] : Store Nat) (by decide) (by decide) (by decide)
      (by intro e he; fin_cases he <;> rfl)
      (fun e he f hfs => Option.noConfusion hfs)
      (by intro e he c; fin_cases he <;> exact ⟨rfl, rfl⟩)
      (by decide)
    rw [h]
    decide
  · have h := service_fold_of_transitions "line" addTable noSide
      (fun _ => addHandler) "y" [calcEvent "y" 3, calcEvent "y" 4]
      ([] : Store Nat) (by decide) (by decide) (by decide)
      (by intro e he; fin_cases he <;> rfl)
      (fun e he f hfs => Option.noConfusion hfs)
      (by intro e he c; fin_cases he <;> exact ⟨rfl, rfl⟩)
      (by decide)
    rw [h]
    decide

/-- The seen-id map only matters up to membership. -/
theorem dedupGo_congr (xs : List (Keyed γ)) : ∀ seen₁ seen₂ : List String,
    (∀ a, a ∈ seen₁ ↔ a ∈ seen₂) → dedupGo seen₁ xs = dedupGo seen₂ xs := by
  induction xs with
  | nil => intro _ _ _; rfl
  | cons x rest ih =>
    intro s1 s2 hmem
    by_cases hx : x.id ∈ s1
    · have hx2 : x.id ∈ s2 := (hmem x.id).mp hx
      simp only [dedupGo, if_pos hx, if_pos hx2]
      exact ih s1 s2 hmem
    · have hx2 : x.id ∉ s2 := fun h => hx ((hmem x.id).mpr h)
      simp only [dedupGo, if_neg hx, if_neg hx2]
      rw [ih (x.id :: s1) (x.id :: s2) (by intro a; simp [hmem a])]

/-- Marking an id as seen is the same as pre-dropping its occurrences. -/
theorem dedupGo_cons_seen (a : String) (xs : List (Keyed γ)) : ∀ seen,
    dedupGo (a :: seen) xs = dedupGo seen (xs.filter (fun y => y.id != a)) := by
  induction xs with
  | nil => intro _; rfl
  | cons x rest ih =>
    intro seen
    by_cases hxa : x.id = a
    · have hdrop : (x.id != a) = false := by simp [hxa]
      have hmem : x.id ∈ a :: seen := by simp [hxa]
      simp only [dedupGo, List.filter_cons, hdrop, if_pos hmem,
        Bool.false_eq_true, ite_false]
      exact ih seen
    · have hkeep : (x.id != a) = true := by simp [hxa]
      by_cases hxs : x.id ∈ seen
      · have hmem : x.id ∈ a :: seen := List.mem_cons_of_mem a hxs
        simp only [dedupGo, List.filter_cons, hkeep, if_pos hmem, ite_true,
          if_pos hxs]
        exact ih seen
      · have hmem : x.id ∉ a :: seen := by
          intro hc
          rcases List.mem_cons.mp hc with h | h
          · exact hxa h
          · exact hxs h
        simp only [dedupGo, List.filter_cons, hkeep, if_neg hmem, ite_true,
          if_neg hxs]
        rw [dedupGo_congr rest (x.id :: a :: seen) (a :: x.id :: seen)
          (by intro b; constructor <;> (intro hb; simp at hb ⊢; tauto))]
        rw [ih (x.id :: seen)]

/-- Length-bounded induction engine for the dedup characterization. -/
theorem dedupGo_nil_eq_firstOccurrences :
    ∀ (n : Nat) (xs : List (Keyed γ)), xs.length ≤ n →
      dedupGo [] xs = firstOccurrences xs
  | _, [], _ => by simp [dedupGo, firstOccurrences]
  | 0, x :: rest, hlen => absurd hlen (by simp)
  | Nat.succ n, x :: rest, hlen => by
    have hnotmem : x.id ∉ ([] : List String) := by simp
    simp only [dedupGo, firstOccurrences, if_neg hnotmem]
    rw [dedupGo_cons_seen x.id rest []]
    rw [dedupGo_nil_eq_firstOccurrences n (rest.filter (fun y => y.id != x.id))
      (le_trans (List.length_filter_le _ _) (Nat.le_of_succ_le_succ hlen))]

/-- C8: one `filterPreviouslySeenIds` instance passes exactly the first
value carrying each distinct id and drops every later value with an
already-seen id; the instance owns its own seen-id map, which starts
empty at construction. -/
theorem filterPreviouslySeenIds_first_only (xs : List (Keyed γ)) :
    filterPreviouslySeenIds xs = firstOccurrences xs ∧
    filterPreviouslySeenIds xs = dedupGo [] xs :=
  ⟨dedupGo_nil_eq_firstOccurrences xs.length xs (le_refl _), rfl⟩

/-- C10: `subjectFactory` (and `eventFactory`) selects between
BehaviorSubject and Subject by JavaScript truthiness of the supplied
default, so every falsy default — `0`, the empty string, `false` —
yields a plain Subject: a fresh subscriber receives no initial emission
even though a default value was explicitly supplied. -/
theorem falsy_default_plain_subject (v : JsVal) (hv : jsTruthy v = false) :
    subjectFactory (some v) = .plain ∧
    initialEmissions (subjectFactory (some v)) = [] ∧
    (∀ m : Meta, eventFactory m (some v) = .plain ∧
      initialEmissions (eventFactory m (some v)) = []) ∧
    some v ≠ (none : Option JsVal) := by
  refine ⟨?_, ?_, ?_, by simp⟩
  · simp [subjectFactory, hv]
  · simp [subjectFactory, hv, initialEmissions]
  · intro m
    constructor <;> simp [eventFactory, hv, initialEmissions]

/-- C10 witness: the explicitly supplied defaults `0`, `""` and `false`
all produce a plain Subject with no initial emission. -/
theorem falsy_default_plain_subject_witness :
    (subjectFactory (some (.vnum 0)) = .plain ∧
      initialEmissions (subjectFactory (some (.vnum 0))) = [] ∧
      eventFactory ⟨"calc", "add"⟩ (some (.vnum 0)) = .plain) ∧
    (subjectFactory (some (.vstr "")) = .plain ∧
      initialEmissions (eventFactory ⟨"calc", "add"⟩ (some (.vstr ""))) = []) ∧
    subjectFactory (some (.vbool false)) = .plain :=
  ⟨⟨(falsy_default_plain_subject (.vnum 0) (by decide)).1,
    (falsy_default_plain_subject (.vnum 0) (by decide)).2.1,
    ((falsy_default_plain_subject (.vnum 0) (by decide)).2.2.1 ⟨"calc", "add"⟩).1⟩,
   ⟨(falsy_default_plain_subject (.vstr "") (by decide)).1,
    ((falsy_default_plain_subject (.vstr "") (by decide)).2.2.1 ⟨"calc", "add"⟩).2⟩,
   (falsy_default_plain_subject (.vbool false) (by decide)).1⟩

end Claims

end RxEntity
